import Mathlib

/-!
Verification of the `generate_article.py` script (YouTube-transcript → LinkedIn
article generator).  The Python source is shallowly embedded: its pure text
transformations (`get_video_id`, `parse_article_response`, `sanitize_filename`)
become executable Lean functions on `List Char` / `String`, and the effectful
orchestrator `main` becomes a function from an explicit environment (credential,
CLI url arguments, collaborator results) to the list of observable events and
the process exit code.

The script's regexes are embedded operationally, following CPython `re`
semantics for the exact patterns used by the source:
* `re.search` scans candidate start positions left to right; the first
  position where the pattern matches wins.
* alternation `(?:v=|\/)` tries branches in order at each position;
* `\s*` is greedy with backtracking, `(.+?)` is lazy, `$` in MULTILINE mode
  matches before a newline or at end of input, and DOTALL lets `.` match
  newlines.
Python's whitespace class is modelled by the ASCII whitespace characters
(space, tab, newline, carriage return, vertical tab, form feed), which is
what `\s`, `str.strip()` and `str.split()` agree on over ASCII input.
-/

/-- ASCII model of Python's whitespace class (used by `\s`, `str.strip`,
`str.split`). -/
def isPySpace (c : Char) : Bool :=
  c == ' ' || c == '\t' || c == '\n' || c == '\r' ||
  c == Char.ofNat 11 || c == Char.ofNat 12

/-- The character class `[0-9A-Za-z_-]` of the video-id patterns. -/
def isIdChar (c : Char) : Bool :=
  c.isAlphanum || c == '_' || c == '-'

/-- Python `str.strip()`: remove whitespace from both ends. -/
def pyStrip (l : List Char) : List Char :=
  (((l.dropWhile isPySpace).reverse).dropWhile isPySpace).reverse

/-- Match a literal pattern at the front of the input, returning the rest. -/
def stripPre : List Char → List Char → Option (List Char)
  | [], l => some l
  | _ :: _, [] => none
  | p :: ps, c :: cs => if c = p then stripPre ps cs else none

/-- `grabId n l` consumes exactly `n` characters of `[0-9A-Za-z_-]` from the
front of `l` (the `([0-9A-Za-z_-]{11})` capture group), failing otherwise. -/
def grabId : Nat → List Char → Option (List Char)
  | 0, _ => some []
  | _ + 1, [] => none
  | n + 1, c :: rest =>
      if isIdChar c then (grabId n rest).map (fun g => c :: g) else none

/-- One alternation branch of a video-id pattern: a literal lead-in followed by
the 11-character capture group. -/
def tryBranch (p : List Char) (l : List Char) : Option (List Char) :=
  match stripPre p l with
  | some rest => grabId 11 rest
  | none => none

/-- Pattern `(?:v=|\/)([0-9A-Za-z_-]{11}).*` tested at one position (the
trailing `.*` always succeeds and captures nothing). -/
def matchAt1 (l : List Char) : Option (List Char) :=
  match tryBranch ['v', '='] l with
  | some r => some r
  | none => tryBranch ['/'] l

/-- Pattern `(?:embed\/)([0-9A-Za-z_-]{11})` tested at one position. -/
def matchAt2 (l : List Char) : Option (List Char) :=
  tryBranch ['e', 'm', 'b', 'e', 'd', '/'] l

/-- Pattern `(?:youtu\.be\/)([0-9A-Za-z_-]{11})` tested at one position. -/
def matchAt3 (l : List Char) : Option (List Char) :=
  tryBranch ['y', 'o', 'u', 't', 'u', '.', 'b', 'e', '/'] l

/-- `re.search`: try the matcher at each start position, left to right. -/
def reSearch {α : Type} (f : List Char → Option α) : List Char → Option α
  | [] => f []
  | c :: rest =>
    match f (c :: rest) with
    | some r => some r
    | none => reSearch f rest

/-- `get_video_id` from the source: `None` (modelled `Except.ok none`) for
empty/whitespace-only input, then the three `re.search` patterns in order,
then the bare 11-character fallback, otherwise `raise ValueError` (modelled
`Except.error`). -/
def get_video_id (url : String) : Except String (Option String) :=
  if url.data = [] ∨ pyStrip url.data = [] then .ok none
  else
    match reSearch matchAt1 url.data with
    | some g => .ok (some (String.mk g))
    | none =>
      match reSearch matchAt2 url.data with
      | some g => .ok (some (String.mk g))
      | none =>
        match reSearch matchAt3 url.data with
        | some g => .ok (some (String.mk g))
        | none =>
          if (pyStrip url.data).length = 11 then
            .ok (some (String.mk (pyStrip url.data)))
          else .error ("Could not extract video ID from: " ++ url)

deriving instance DecidableEq for Except

/-! ### Response parser

`parse_article_response` uses three regex operations:
* `re.search(r'^TITLE:\s*(.+?)$', response, re.MULTILINE)` and the matching
  `re.sub` with `''`;
* `re.search(r'HASHTAGS:\s*(.+?)$', response, re.MULTILINE | re.DOTALL)` and
  the matching `re.sub` with `''`.
The tails `\s*(.+?)$` are embedded with explicit greedy-`\s*` backtracking and
a lazy `.+?` that stops at the first `$` position (end of input, or before a
newline, since both searches use MULTILINE).  Without DOTALL the first success
of the lazy `.+?` is the run of non-newline characters up to the line end (and
it fails if that run is empty); with DOTALL, `.` also matches a newline, so on
a nonempty input the lazy match always succeeds with one character plus the
rest of that character's line. -/

/-- `(.+?)$` in MULTILINE mode without DOTALL, returning (capture, rest after
the match). -/
def dotEolM (l : List Char) : Option (List Char × List Char) :=
  match l with
  | [] => none
  | c :: _ =>
    if c = '\n' then none
    else some (l.takeWhile (fun d => d != '\n'), l.dropWhile (fun d => d != '\n'))

/-- `(.+?)$` in MULTILINE + DOTALL mode, returning (capture, rest after the
match). -/
def dotEolS (l : List Char) : Option (List Char × List Char) :=
  match l with
  | [] => none
  | c :: rest =>
    some (c :: rest.takeWhile (fun d => d != '\n'), rest.dropWhile (fun d => d != '\n'))

/-- `\s*(.+?)$` (MULTILINE): greedy `\s*` tried longest first, backtracking
into shorter whitespace runs when the lazy tail fails. -/
def wsDotEolM : List Char → Option (List Char × List Char)
  | [] => none
  | c :: rest =>
    if isPySpace c then
      match wsDotEolM rest with
      | some r => some r
      | none => dotEolM (c :: rest)
    else dotEolM (c :: rest)

/-- `\s*(.+?)$` (MULTILINE + DOTALL), greedy `\s*` with backtracking. -/
def wsDotEolS : List Char → Option (List Char × List Char)
  | [] => none
  | c :: rest =>
    if isPySpace c then
      match wsDotEolS rest with
      | some r => some r
      | none => dotEolS (c :: rest)
    else dotEolS (c :: rest)

/-- The title pattern tested at one (line-start) position. -/
def titleHere (l : List Char) : Option (List Char × List Char) :=
  match stripPre ['T', 'I', 'T', 'L', 'E', ':'] l with
  | some rest => wsDotEolM rest
  | none => none

/-- The hashtag pattern tested at one position (it has no `^` anchor). -/
def hashHere (l : List Char) : Option (List Char × List Char) :=
  match stripPre ['H', 'A', 'S', 'H', 'T', 'A', 'G', 'S', ':'] l with
  | some rest => wsDotEolS rest
  | none => none

/-- Scan the positions after each newline for the anchored title pattern. -/
def findTitleAfter : List Char → Option (List Char)
  | [] => none
  | c :: rest =>
    if c = '\n' then
      match titleHere rest with
      | some (cap, _) => some cap
      | none => findTitleAfter rest
    else findTitleAfter rest

/-- `re.search(r'^TITLE:\s*(.+?)$', response, re.MULTILINE)`: the `^` anchor
restricts candidate positions to the start of the input and the position after
each newline. -/
def findTitle (l : List Char) : Option (List Char) :=
  match titleHere l with
  | some (cap, _) => some cap
  | none => findTitleAfter l

/-- `re.search(r'HASHTAGS:\s*(.+?)$', response, re.MULTILINE | re.DOTALL)`,
returning (capture, rest after the matched region). -/
def findHash (l : List Char) : Option (List Char × List Char) :=
  reSearch hashHere l

/-- `re.sub(r'^TITLE:\s*.+?$', '', content, flags=re.MULTILINE)`: scan with a
line-start flag, drop each match, resume after its end (which is never a line
start, since the lazy `.+?` ends in a non-newline character).  Fueled with the
input length so the definition stays structurally recursive; each match
consumes at least seven characters. -/
def removeTitleFuel : Nat → Bool → List Char → List Char
  | 0, _, _ => []
  | _ + 1, _, [] => []
  | n + 1, lineStart, c :: rest =>
    if lineStart then
      match titleHere (c :: rest) with
      | some (_, rem) => removeTitleFuel n false rem
      | none => c :: removeTitleFuel n (c == '\n') rest
    else c :: removeTitleFuel n (c == '\n') rest

def removeTitle (l : List Char) : List Char :=
  removeTitleFuel l.length true l

/-- `re.sub(r'HASHTAGS:\s*.+?$', '', content, flags=re.MULTILINE|re.DOTALL)`,
fueled with the input length; each match consumes at least ten characters. -/
def removeHashFuel : Nat → List Char → List Char
  | 0, _ => []
  | _ + 1, [] => []
  | n + 1, c :: rest =>
    match hashHere (c :: rest) with
    | some (_, rem) => removeHashFuel n rem
    | none => c :: removeHashFuel n rest

def removeHash (l : List Char) : List Char :=
  removeHashFuel l.length l

/-- Python `str.split()` with no arguments: split on whitespace runs,
discarding empty tokens. -/
def pySplitFuel : Nat → List Char → List (List Char)
  | 0, _ => []
  | _ + 1, [] => []
  | n + 1, c :: rest =>
    if isPySpace c then pySplitFuel n rest
    else (c :: rest.takeWhile (fun d => !isPySpace d)) ::
      pySplitFuel n (rest.dropWhile (fun d => !isPySpace d))

def pySplit (l : List Char) : List (List Char) :=
  pySplitFuel l.length l

/-- `[tag.strip() for tag in hashtags_text.split() if tag.strip()]` applied to
the raw capture, whose own `.strip()` comes first. -/
def hashTokens (cap : List Char) : List (List Char) :=
  (pySplit (pyStrip cap)).filterMap fun t =>
    let s := pyStrip t
    if s = [] then none else some s

/-- The timestamp fed to `datetime.now().strftime('%Y%m%d_%H%M%S')` in the
default-title branch; modelling the clock reading as an explicit argument. -/
structure Timestamp where
  year : Nat
  month : Nat
  day : Nat
  hour : Nat
  minute : Nat
  second : Nat

/-- Zero-pad a numeral to width `w`, as the `strftime` field formats do. -/
def padNum (w : Nat) (n : Nat) : String :=
  let s := toString n
  if s.length < w then String.mk (List.replicate (w - s.length) '0') ++ s else s

/-- `strftime('%Y%m%d_%H%M%S')`. -/
def fmtTs (t : Timestamp) : String :=
  padNum 4 t.year ++ padNum 2 t.month ++ padNum 2 t.day ++ "_" ++
  padNum 2 t.hour ++ padNum 2 t.minute ++ padNum 2 t.second

/-- `parse_article_response` from the source, returning
(title, content, hashtags).  The title search and the hashtag search both run
on the raw response; the two substitutions run on the evolving `content`
(each followed by `.strip()`), exactly as in the source.  The default title
uses the explicit timestamp argument. -/
def parse_article_response (now : Timestamp) (response : String) :
    String × String × List String :=
  let respL := response.data
  let titleCap := findTitle respL
  let content1 :=
    match titleCap with
    | some _ => pyStrip (removeTitle respL)
    | none => respL
  let hashRes := findHash respL
  let hashtags :=
    match hashRes with
    | some (cap, _) => hashTokens cap
    | none => []
  let content2 :=
    match hashRes with
    | some _ => pyStrip (removeHash content1)
    | none => content1
  let titleStr :=
    match titleCap with
    | some cap => pyStrip cap
    | none => []
  let finalTitle :=
    if titleStr = [] then ("Article_" ++ fmtTs now).data else titleStr
  (String.mk finalTitle, String.mk content2, hashtags.map String.mk)

example : ∀ now, parse_article_response now
    "TITLE: Foo\n\nBody text\n\nHASHTAGS: #a #b #c" =
    ("Foo", "Body text", ["#a", "#b", "#c"]) := fun _ => rfl

example : parse_article_response ⟨2025, 1, 1, 0, 0, 0⟩
    "Body\nHASHTAGS: #a\ntrailing" =
    ("Article_20250101_000000", "Body\n\ntrailing", ["#a"]) := rfl

/-! Fidelity spot-checks of the embedded regex operations against CPython
`re` on the source's patterns (greedy `\s*` crossing newlines, lazy `.+?`,
MULTILINE `$`, DOTALL, anchored and unanchored search, and `re.sub`). -/

example : findTitle "TITLE:\n\nFoo".data = some "Foo".data := by decide
example : findTitle "xTITLE: Y".data = none := by decide
example : findTitle "x\nTITLE: Y z \nmore".data = some "Y z ".data := by decide
example : findTitle "TITLE: ".data = some " ".data := by decide
example : removeTitle "TITLE:\n\nFoo\nBar".data = "\nBar".data := by decide
example : (findHash "HASHTAGS: #a #b\ntrailing".data).map Prod.fst =
    some "#a #b".data := by decide
example : (findHash "HASHTAGS: \n x".data).map Prod.fst = some "x".data := by
  decide
example : (findHash "xHASHTAGS:\n".data).map Prod.fst = some "\n".data := by
  decide
example : findHash "abcHASHTAGS:".data = none := by decide
example : removeHash "Body\nHASHTAGS: #a\ntrailing".data =
    "Body\n\ntrailing".data := by decide
example : pySplit "  #a  #b ".data = ["#a".data, "#b".data] := by decide

/-! ### Filename sanitizer -/

/-- The character class `[<>:"/\\|?*]` removed by `sanitize_filename`. -/
def isBadFileChar (c : Char) : Bool :=
  c == '<' || c == '>' || c == ':' || c == '\"' || c == '/' ||
  c == '\\' || c == '|' || c == '?' || c == '*'

/-- `re.sub(r'\s+', '_', ...)`: each maximal whitespace run becomes one
underscore.  The flag records whether we are inside a run already replaced. -/
def collapseWsGo : Bool → List Char → List Char
  | _, [] => []
  | inRun, c :: rest =>
    if isPySpace c then
      if inRun then collapseWsGo true rest else '_' :: collapseWsGo true rest
    else c :: collapseWsGo false rest

/-- The title after invalid-character removal and whitespace collapsing,
before truncation. -/
def cleanedTitle (title : String) : List Char :=
  collapseWsGo false (title.data.filter (fun c => !isBadFileChar c))

/-- `sanitize_filename` from the source: strip `[<>:"/\\|?*]`, collapse
whitespace runs to underscores, truncate to 100 characters. -/
def sanitize_filename (title : String) : String :=
  let cleaned := cleanedTitle title
  if cleaned.length > 100 then String.mk (cleaned.take 100)
  else String.mk cleaned

example : sanitize_filename "Ray vs Triton: A Deep Dive?" =
    "Ray_vs_Triton_A_Deep_Dive" := rfl
example : (sanitize_filename (String.mk (List.replicate 101 ':'))).length = 0 := by
  decide

/-! ### Orchestrator

`main` is modelled as a function from an explicit environment to the sequence
of observable collaborator events plus the process exit code.  The environment
fixes the parsed CLI url arguments, the credential lookup
`os.environ.get("GEMINI_API_KEY")`, the transcript fetcher's outcome per video
id (an exception in `download_transcript` is an `Except.error`; the id is
`none` when `get_video_id` returned `None` for a whitespace-only url, in which
case the fetch is still attempted, on `None`), the generation call's outcome,
and the clock reading used for a default title.  File-system writes are
modelled as always succeeding. -/

inductive Event where
  | fetchTranscript (vid : Option String)
  | genRequest
  | writeArticle (path : String)
deriving DecidableEq, Repr

structure RunEnv where
  geminiKey : Option String
  urlArgs : List String
  fetch : Option String → Except String String
  gen : Except String String
  now : Timestamp

/-- `urls = [url for url in urls if url and url.strip()]`. -/
def collectUrls (args : List String) : List String :=
  args.filter fun u => !(pyStrip u.data).isEmpty

/-- One iteration of the transcript download loop: extract the id (a
`ValueError` is caught and the url skipped with no network access), then
attempt the fetch (a fetch error is caught and the url skipped). -/
def dlStep (e : RunEnv) (acc : List Event × List String) (url : String) :
    List Event × List String :=
  match get_video_id url with
  | .error _ => acc
  | .ok v =>
    match e.fetch v with
    | .error _ => (acc.1 ++ [Event.fetchTranscript v], acc.2)
    | .ok t => (acc.1 ++ [Event.fetchTranscript v], acc.2 ++ [t])

/-- The transcript download loop over all usable urls: returns the events and
the successfully downloaded transcripts, in order. -/
def downloadPhase (e : RunEnv) (urls : List String) : List Event × List String :=
  urls.foldl (dlStep e) ([], [])

/-- `main` from the source: exit 1 when no usable url remains, when no
transcript downloads succeed, or when `generate_article` raises (which happens
for a missing `GEMINI_API_KEY` before the generation request, or for a failed
generation call after it); otherwise parse the response, write the article
file, and exit 0. -/
def runMain (e : RunEnv) : List Event × Nat :=
  let urls := collectUrls e.urlArgs
  if urls = [] then ([], 1)
  else
    let dl := downloadPhase e urls
    if dl.2 = [] then (dl.1, 1)
    else
      match e.geminiKey with
      | none => (dl.1, 1)
      | some _ =>
        match e.gen with
        | .error _ => (dl.1 ++ [Event.genRequest], 1)
        | .ok response =>
          let parsed := parse_article_response e.now response
          (dl.1 ++ [Event.genRequest,
            Event.writeArticle ("articles/" ++ sanitize_filename parsed.1 ++ ".md")], 0)

/-- Environment with the credential absent but one perfectly good url and
collaborators that would succeed: the transcript fetch still happens. -/
def sampleNoKeyEnv : RunEnv where
  geminiKey := none
  urlArgs := ["abcdefghijk"]
  fetch := fun _ => .ok "some transcript text"
  gen := .ok "TITLE: T\n\nB"
  now := ⟨2025, 1, 1, 0, 0, 0⟩

example : runMain sampleNoKeyEnv =
    ([Event.fetchTranscript (some "abcdefghijk")], 1) := rfl

/-! ### Helper lemmas: strings -/

theorem String.mk_data (s : String) : String.mk s.data = s := rfl

theorem string_data_append (a b : String) : (a ++ b).data = a.data ++ b.data := by
  cases a; cases b; rfl

/-! ### Helper lemmas: `pyStrip` -/

theorem pyStrip_eq_nil_iff {l : List Char} :
    pyStrip l = [] ↔ ∀ c ∈ l, isPySpace c = true := by
  unfold pyStrip
  rw [List.reverse_eq_nil_iff, List.dropWhile_eq_nil_iff]
  constructor
  · intro h c hc
    rw [← List.takeWhile_append_dropWhile (p := isPySpace) (l := l)] at hc
    rcases List.mem_append.1 hc with h1 | h2
    · exact List.mem_takeWhile_imp h1
    · exact h _ (List.mem_reverse.2 h2)
  · intro h c hc
    exact h c ((List.dropWhile_sublist isPySpace).subset (List.mem_reverse.1 hc))

theorem pyStrip_of_not_space {l : List Char}
    (h : ∀ c ∈ l, isPySpace c = false) : pyStrip l = l := by
  unfold pyStrip
  have hd : ∀ m : List Char, (∀ c ∈ m, isPySpace c = false) →
      m.dropWhile isPySpace = m := by
    intro m hm
    cases m with
    | nil => rfl
    | cons c rest =>
      rw [List.dropWhile_cons_of_neg]
      simp [hm c (List.mem_cons_self c rest)]
  rw [hd l h, hd l.reverse (fun c hc => h c (List.mem_reverse.1 hc)),
    List.reverse_reverse]

theorem pyStrip_length_le (l : List Char) : (pyStrip l).length ≤ l.length := by
  unfold pyStrip
  calc (((l.dropWhile isPySpace).reverse).dropWhile isPySpace).reverse.length
      = (((l.dropWhile isPySpace).reverse).dropWhile isPySpace).length := by
        rw [List.length_reverse]
    _ ≤ ((l.dropWhile isPySpace).reverse).length :=
        (List.dropWhile_sublist isPySpace).length_le
    _ = (l.dropWhile isPySpace).length := by rw [List.length_reverse]
    _ ≤ l.length := (List.dropWhile_sublist isPySpace).length_le

theorem pyStrip_ne_nil_of_mem {l : List Char} {c : Char}
    (hc : c ∈ l) (hns : isPySpace c = false) : pyStrip l ≠ [] := by
  intro h
  have := pyStrip_eq_nil_iff.1 h c hc
  rw [hns] at this
  exact Bool.false_ne_true this

/-! ### Helper lemmas: `grabId`, `stripPre`, the id patterns -/

theorem grabId_length : ∀ {n : Nat} {l g : List Char},
    grabId n l = some g → g.length = n := by
  intro n
  induction n with
  | zero => intro l g h; simp [grabId] at h; simp [← h]
  | succ m ih =>
    intro l g h
    cases l with
    | nil => simp [grabId] at h
    | cons c rest =>
      by_cases hc : isIdChar c
      · simp [grabId, hc] at h
        obtain ⟨g', hg', rfl⟩ := h
        simp [ih hg']
      · simp [grabId, hc] at h

theorem grabId_le : ∀ {n : Nat} {l g : List Char},
    grabId n l = some g → n ≤ l.length := by
  intro n
  induction n with
  | zero => intro l g _; exact Nat.zero_le _
  | succ m ih =>
    intro l g h
    cases l with
    | nil => simp [grabId] at h
    | cons c rest =>
      by_cases hc : isIdChar c
      · simp [grabId, hc] at h
        obtain ⟨g', hg', _⟩ := h
        simpa using Nat.succ_le_succ (ih hg')
      · simp [grabId, hc] at h

theorem grabId_exact : ∀ (id rest : List Char), (∀ c ∈ id, isIdChar c = true) →
    grabId id.length (id ++ rest) = some id := by
  intro id
  induction id with
  | nil => intro rest _; rfl
  | cons c tl ih =>
    intro rest h
    have ih' := ih rest (fun d hd => h d (List.mem_cons_of_mem c hd))
    simp only [List.length_cons, List.cons_append, grabId,
      h c (List.mem_cons_self c tl), if_pos]
    rw [show (tl.append rest : List Char) = tl ++ rest from rfl, ih']
    rfl

theorem stripPre_length : ∀ {p l rest : List Char},
    stripPre p l = some rest → rest.length + p.length = l.length := by
  intro p
  induction p with
  | nil => intro l rest h; simp [stripPre] at h; simp [h]
  | cons q qs ih =>
    intro l rest h
    cases l with
    | nil => simp [stripPre] at h
    | cons c cs =>
      by_cases hc : c = q
      · simp only [stripPre, if_pos hc] at h
        have := ih h
        simp [List.length_cons, ← this]
        omega
      · simp [stripPre, hc] at h

theorem stripPre_mem : ∀ {p l rest : List Char}, stripPre p l = some rest →
    ∀ c ∈ p, c ∈ l := by
  intro p
  induction p with
  | nil => intro l rest _ c hc; simp at hc
  | cons q qs ih =>
    intro l rest h c hc
    cases l with
    | nil => simp [stripPre] at h
    | cons d ds =>
      by_cases hd : d = q
      · subst hd
        simp only [stripPre, if_pos rfl] at h
        rcases List.mem_cons.1 hc with rfl | hc'
        · exact List.mem_cons_self _ _
        · exact List.mem_cons_of_mem _ (ih h c hc')
      · simp [stripPre, hd] at h

theorem tryBranch_some_length {p l g : List Char}
    (h : tryBranch p l = some g) : g.length = 11 := by
  unfold tryBranch at h
  cases hs : stripPre p l with
  | none => rw [hs] at h; exact absurd h (by simp)
  | some rest => rw [hs] at h; exact grabId_length h

theorem tryBranch_length_bound {p l g : List Char}
    (h : tryBranch p l = some g) : p.length + 11 ≤ l.length := by
  unfold tryBranch at h
  cases hs : stripPre p l with
  | none => rw [hs] at h; exact absurd h (by simp)
  | some rest =>
    rw [hs] at h
    have h1 := stripPre_length hs
    have h2 := grabId_le h
    omega

theorem tryBranch_mem {p l g : List Char}
    (h : tryBranch p l = some g) : ∀ c ∈ p, c ∈ l := by
  unfold tryBranch at h
  cases hs : stripPre p l with
  | none => rw [hs] at h; exact absurd h (by simp)
  | some rest => exact stripPre_mem hs

/-! ### Helper lemmas: `reSearch` -/

theorem reSearch_eq_none {α : Type} {f : List Char → Option α} :
    ∀ {l : List Char}, (∀ t : List Char, t.IsSuffix l → f t = none) →
    reSearch f l = none := by
  intro l
  induction l with
  | nil => intro h; exact h [] List.nil_suffix
  | cons c rest ih =>
    intro h
    have h0 : f (c :: rest) = none := h _ (List.suffix_refl _)
    simp only [reSearch, h0]
    exact ih fun t ht => h t (ht.trans (List.suffix_cons c rest))

theorem reSearch_some {α : Type} {f : List Char → Option α} :
    ∀ {l : List Char} {g : α}, reSearch f l = some g →
    ∃ t : List Char, t.IsSuffix l ∧ f t = some g := by
  intro l
  induction l with
  | nil =>
    intro g h
    exact ⟨[], List.nil_suffix, h⟩
  | cons c rest ih =>
    intro g h
    simp only [reSearch] at h
    cases hf : f (c :: rest) with
    | some r =>
      rw [hf] at h
      exact ⟨c :: rest, List.suffix_refl _, by rw [hf]; exact h⟩
    | none =>
      rw [hf] at h
      obtain ⟨t, ht, hft⟩ := ih h
      exact ⟨t, ht.trans (List.suffix_cons c rest), hft⟩

theorem reSearch_cons_some {α : Type} {f : List Char → Option α}
    {c : Char} {l : List Char} {g : α} (h : f (c :: l) = some g) :
    reSearch f (c :: l) = some g := by
  simp [reSearch, h]

theorem reSearch_cons_none {α : Type} {f : List Char → Option α}
    {c : Char} {l : List Char} (h : f (c :: l) = none) :
    reSearch f (c :: l) = reSearch f l := by
  simp [reSearch, h]

theorem grabId_exact11 {id : List Char} (rest : List Char) (h11 : id.length = 11)
    (hcl : ∀ c ∈ id, isIdChar c = true) : grabId 11 (id ++ rest) = some id := by
  have := grabId_exact id rest hcl
  rwa [h11] at this

/-- An occurrence of `v` immediately followed by `=` somewhere in the list. -/
def hasVEq : List Char → Bool
  | [] => false
  | [_] => false
  | c :: d :: rest => (c == 'v' && d == '=') || hasVEq (d :: rest)

theorem hasVEq_cons_false {c : Char} {l : List Char}
    (h : hasVEq (c :: l) = false) : hasVEq l = false := by
  cases l with
  | nil => rfl
  | cons d rest => simp [hasVEq] at h; exact h.2

theorem matchAt1_eq_none_of {t : List Char} (h1 : '/' ∉ t) (h2 : '=' ∉ t) :
    matchAt1 t = none := by
  cases hb : tryBranch ['v', '='] t with
  | some g => exact absurd (tryBranch_mem hb '=' (by simp)) h2
  | none =>
    cases hb2 : tryBranch ['/'] t with
    | some g => exact absurd (tryBranch_mem hb2 '/' (by simp)) h1
    | none => simp [matchAt1, hb, hb2]

theorem matchAt2_eq_none_of {t : List Char} (h1 : '/' ∉ t) :
    matchAt2 t = none := by
  cases hb : tryBranch ['e', 'm', 'b', 'e', 'd', '/'] t with
  | some g => exact absurd (tryBranch_mem hb '/' (by simp)) h1
  | none => simp [matchAt2, hb]

theorem matchAt3_eq_none_of {t : List Char} (h1 : '/' ∉ t) :
    matchAt3 t = none := by
  cases hb : tryBranch ['y', 'o', 'u', 't', 'u', '.', 'b', 'e', '/'] t with
  | some g => exact absurd (tryBranch_mem hb '/' (by simp)) h1
  | none => simp [matchAt3, hb]

theorem matchAt1_eq_none_short {t : List Char} (h : t.length < 12) :
    matchAt1 t = none := by
  cases hb : tryBranch ['v', '='] t with
  | some g => have := tryBranch_length_bound hb; simp at this; omega
  | none =>
    cases hb2 : tryBranch ['/'] t with
    | some g => have := tryBranch_length_bound hb2; simp at this; omega
    | none => simp [matchAt1, hb, hb2]

theorem matchAt2_eq_none_short {t : List Char} (h : t.length < 12) :
    matchAt2 t = none := by
  cases hb : tryBranch ['e', 'm', 'b', 'e', 'd', '/'] t with
  | some g => have := tryBranch_length_bound hb; simp at this; omega
  | none => simp [matchAt2, hb]

theorem matchAt3_eq_none_short {t : List Char} (h : t.length < 12) :
    matchAt3 t = none := by
  cases hb : tryBranch ['y', 'o', 'u', 't', 'u', '.', 'b', 'e', '/'] t with
  | some g => have := tryBranch_length_bound hb; simp at this; omega
  | none => simp [matchAt3, hb]

/-- No pattern-1 match anywhere in a list without `/` and without `=`. -/
theorem scan1_eq_none_of {l : List Char} (h1 : '/' ∉ l) (h2 : '=' ∉ l) :
    reSearch matchAt1 l = none :=
  reSearch_eq_none fun t ht =>
    matchAt1_eq_none_of (fun hc => h1 (ht.subset hc)) (fun hc => h2 (ht.subset hc))

theorem scan2_eq_none_of {l : List Char} (h1 : '/' ∉ l) :
    reSearch matchAt2 l = none :=
  reSearch_eq_none fun t ht => matchAt2_eq_none_of (fun hc => h1 (ht.subset hc))

theorem scan3_eq_none_of {l : List Char} (h1 : '/' ∉ l) :
    reSearch matchAt3 l = none :=
  reSearch_eq_none fun t ht => matchAt3_eq_none_of (fun hc => h1 (ht.subset hc))

theorem scan1_eq_none_short {l : List Char} (h : l.length < 12) :
    reSearch matchAt1 l = none :=
  reSearch_eq_none fun t ht =>
    matchAt1_eq_none_short (Nat.lt_of_le_of_lt ht.length_le h)

theorem scan2_eq_none_short {l : List Char} (h : l.length < 12) :
    reSearch matchAt2 l = none :=
  reSearch_eq_none fun t ht =>
    matchAt2_eq_none_short (Nat.lt_of_le_of_lt ht.length_le h)

theorem scan3_eq_none_short {l : List Char} (h : l.length < 12) :
    reSearch matchAt3 l = none :=
  reSearch_eq_none fun t ht =>
    matchAt3_eq_none_short (Nat.lt_of_le_of_lt ht.length_le h)

/-- Pattern 1 fires at a `/` followed by a valid capture. -/
theorem scan1_at_slash {l g : List Char} (h : grabId 11 l = some g) :
    reSearch matchAt1 ('/' :: l) = some g := by
  apply reSearch_cons_some
  simp [matchAt1, tryBranch, stripPre, h]

/-- Pattern 1 fires at a `v=` followed by a valid capture. -/
theorem scan1_at_veq {l g : List Char} (h : grabId 11 l = some g) :
    reSearch matchAt1 ('v' :: '=' :: l) = some g := by
  apply reSearch_cons_some
  simp [matchAt1, tryBranch, stripPre, h]

/-- Scanning pattern 1 skips over a region with no `/` and no `v=` occurrence,
provided the next character cannot complete a `v=` with the region's last
character. -/
theorem scan1_skip : ∀ (pre : List Char) (t : Char) (rest : List Char),
    '/' ∉ pre → hasVEq pre = false → t ≠ '=' →
    reSearch matchAt1 (pre ++ t :: rest) = reSearch matchAt1 (t :: rest) := by
  intro pre
  induction pre with
  | nil => intro t rest _ _ _; rfl
  | cons c pre' ih =>
    intro t rest hs hv ht
    have hcs : c ≠ '/' := fun h => hs (h ▸ List.mem_cons_self c pre')
    have hnone : matchAt1 (c :: (pre' ++ t :: rest)) = none := by
      have hveq : tryBranch ['v', '='] (c :: (pre' ++ t :: rest)) = none := by
        by_cases hcv : c = 'v'
        · subst hcv
          cases pre' with
          | nil => simp [tryBranch, stripPre, ht]
          | cons d pre'' =>
            have hd : d ≠ '=' := by
              intro hd
              subst hd
              simp [hasVEq] at hv
            simp [tryBranch, stripPre, hd]
        · simp [tryBranch, stripPre, hcv]
      have hsl : tryBranch ['/'] (c :: (pre' ++ t :: rest)) = none := by
        simp [tryBranch, stripPre, hcs]
      simp [matchAt1, hveq, hsl]
    rw [List.cons_append, reSearch_cons_none hnone]
    exact ih t rest (fun h => hs (List.mem_cons_of_mem c h))
      (hasVEq_cons_false hv) ht

/-- Marching pattern 1 through the canonical watch-url head: every candidate
position inside the head fails on a concrete character, and the `v=` at its
end fires. -/
theorem scan1_watch (id : List Char) (h11 : id.length = 11)
    (hcl : ∀ c ∈ id, isIdChar c = true) :
    reSearch matchAt1 ("https://www.youtube.com/watch?v=".data ++ id) = some id := by
  have hg : grabId 11 id = some id := by
    have := grabId_exact11 [] h11 hcl
    rwa [List.append_nil] at this
  simp +decide [reSearch, matchAt1, tryBranch, stripPre, grabId, hg]

/-- Pattern 1 already resolves the canonical short-link form. -/
theorem scan1_be (id : List Char) (h11 : id.length = 11)
    (hcl : ∀ c ∈ id, isIdChar c = true) :
    reSearch matchAt1 ("https://youtu.be/".data ++ id) = some id := by
  have hg : grabId 11 id = some id := by
    have := grabId_exact11 [] h11 hcl
    rwa [List.append_nil] at this
  simp +decide [reSearch, matchAt1, tryBranch, stripPre, grabId, hg]

/-- Pattern 1 already resolves the canonical embed form. -/
theorem scan1_embed (id : List Char) (h11 : id.length = 11)
    (hcl : ∀ c ∈ id, isIdChar c = true) :
    reSearch matchAt1 ("https://www.youtube.com/embed/".data ++ id) = some id := by
  have hg : grabId 11 id = some id := by
    have := grabId_exact11 [] h11 hcl
    rwa [List.append_nil] at this
  simp +decide [reSearch, matchAt1, tryBranch, stripPre, grabId, hg]

theorem isPySpace_not_id {c : Char} (h : isPySpace c = true) :
    isIdChar c = false := by
  simp [isPySpace] at h
  rcases h with ((((rfl | rfl) | rfl) | rfl) | rfl) | rfl <;> decide

theorem isIdChar_not_space {c : Char} (h : isIdChar c = true) :
    isPySpace c = false := by
  cases hs : isPySpace c with
  | false => rfl
  | true =>
    have := isPySpace_not_id hs
    rw [h] at this
    exact absurd this (by decide)

theorem not_empty_of_mem {url : String} {c : Char} (hc : c ∈ url.data)
    (hns : isPySpace c = false) : ¬(url.data = [] ∨ pyStrip url.data = []) := by
  rintro (h | h)
  · rw [h] at hc
    exact absurd hc (List.not_mem_nil c)
  · exact pyStrip_ne_nil_of_mem hc hns h

/-- A successful pattern-1 search short-circuits `get_video_id`. -/
theorem get_video_id_of_scan1 {url : String} {g : List Char}
    (hne : ¬(url.data = [] ∨ pyStrip url.data = []))
    (h : reSearch matchAt1 url.data = some g) :
    get_video_id url = .ok (some (String.mk g)) := by
  simp only [get_video_id, if_neg hne, h]

theorem matchAt1_some_length {t g : List Char} (h : matchAt1 t = some g) :
    g.length = 11 := by
  unfold matchAt1 at h
  cases hb : tryBranch ['v', '='] t with
  | some r =>
    rw [hb] at h
    injection h with h'
    exact h' ▸ tryBranch_some_length hb
  | none =>
    rw [hb] at h
    exact tryBranch_some_length h

/-! ### Claim C4 -/

/-- C4 counterexample: a whitespace-only reference does not raise; the source
returns the sentinel `None` (`Except.ok none`) for it, so the claim that
empty or whitespace-only input fails with an `InvalidReference` error is
false at the input `" "`. -/
theorem c4_counterexample : get_video_id (String.mk [' ']) = Except.ok none := by
  decide

/-- C4 (amended): an empty or whitespace-only reference makes `get_video_id`
return the sentinel `None` without raising, and a 5-character reference that
is not whitespace-only (no pattern can match a string of length 5) raises the
`ValueError`. -/
theorem c4_short_and_blank_refs :
    (∀ s : String, (∀ c ∈ s.data, isPySpace c = true) →
      get_video_id s = .ok none) ∧
    (∀ s : String, s.data.length = 5 → (∃ c ∈ s.data, isPySpace c = false) →
      get_video_id s = .error ("Could not extract video ID from: " ++ s)) := by
  constructor
  · intro s h
    simp only [get_video_id, if_pos (Or.inr (pyStrip_eq_nil_iff.2 h))]
  · rintro s h5 ⟨c, hc, hcs⟩
    have hne : ¬(s.data = [] ∨ pyStrip s.data = []) :=
      not_empty_of_mem hc hcs
    have h1 : reSearch matchAt1 s.data = none := scan1_eq_none_short (by omega)
    have h2 : reSearch matchAt2 s.data = none := scan2_eq_none_short (by omega)
    have h3 : reSearch matchAt3 s.data = none := scan3_eq_none_short (by omega)
    have hlen : ¬((pyStrip s.data).length = 11) := by
      have := pyStrip_length_le s.data
      omega
    simp only [get_video_id, if_neg hne, h1, h2, h3, if_neg hlen]

/-- C4 witness: the amended claim evaluated on a 3-space reference and on the
5-character reference `"abcde"`. -/
theorem c4_short_and_blank_refs_witness :
    get_video_id (String.mk [' ', ' ', ' ']) = Except.ok none ∧
    get_video_id "abcde" =
      Except.error ("Could not extract video ID from: " ++ "abcde") :=
  ⟨c4_short_and_blank_refs.1 (String.mk [' ', ' ', ' ']) (by decide),
   c4_short_and_blank_refs.2 "abcde" (by decide) (by decide)⟩

/-! ### Claim C5 -/

/-- C5 counterexample: `get_video_id` succeeds on eleven exclamation marks via
the bare-11-character fallback, returning an identifier that does not match
`[0-9A-Za-z_-]{11}`; the claimed charset invariant is false at this input. -/
theorem c5_counterexample :
    get_video_id (String.mk (List.replicate 11 '!')) =
      Except.ok (some (String.mk (List.replicate 11 '!'))) ∧
    isIdChar '!' = false := by
  decide

/-- C5 (amended): every identifier returned by a successful extraction is
exactly 11 characters long; it need not match `[0-9A-Za-z_-]` because the
bare fallback accepts any trimmed 11-character input. -/
theorem c5_length_invariant : ∀ (s r : String),
    get_video_id s = .ok (some r) → r.length = 11 := by
  intro s r h
  unfold get_video_id at h
  by_cases hne : s.data = [] ∨ pyStrip s.data = []
  · rw [if_pos hne] at h
    simp at h
  · rw [if_neg hne] at h
    cases h1 : reSearch matchAt1 s.data with
    | some g =>
      rw [h1] at h
      injection h with h'
      injection h' with h''
      obtain ⟨t, _, hft⟩ := reSearch_some h1
      rw [← h'', String.length_mk]
      exact matchAt1_some_length hft
    | none =>
      rw [h1] at h
      cases h2 : reSearch matchAt2 s.data with
      | some g =>
        rw [h2] at h
        injection h with h'
        injection h' with h''
        obtain ⟨t, _, hft⟩ := reSearch_some h2
        rw [← h'', String.length_mk]
        exact tryBranch_some_length hft
      | none =>
        rw [h2] at h
        cases h3 : reSearch matchAt3 s.data with
        | some g =>
          rw [h3] at h
          injection h with h'
          injection h' with h''
          obtain ⟨t, _, hft⟩ := reSearch_some h3
          rw [← h'', String.length_mk]
          exact tryBranch_some_length hft
        | none =>
          rw [h3] at h
          by_cases hlen : (pyStrip s.data).length = 11
          · rw [if_pos hlen] at h
            injection h with h'
            injection h' with h''
            rw [← h'', String.length_mk]
            exact hlen
          · rw [if_neg hlen] at h
            exact absurd h (by simp)

/-- C5 witness: the amended length invariant evaluated on a bare identifier. -/
theorem c5_length_invariant_witness : ("abcdefghijk" : String).length = 11 :=
  c5_length_invariant "abcdefghijk" "abcdefghijk" (by decide)

/-! ### Claim C6 -/

/-- C6: for every 11-character identifier over `[0-9A-Za-z_-]`, extraction on
the watch-url, short-link and embed forms returns the identifier, and a bare
identifier with no url structure is returned unchanged. -/
theorem c6_url_forms : ∀ id : String, id.data.length = 11 →
    (∀ c ∈ id.data, isIdChar c = true) →
    get_video_id ("https://www.youtube.com/watch?v=" ++ id) = .ok (some id) ∧
    get_video_id ("https://youtu.be/" ++ id) = .ok (some id) ∧
    get_video_id ("https://www.youtube.com/embed/" ++ id) = .ok (some id) ∧
    get_video_id id = .ok (some id) := by
  intro id h11 hcl
  have hid : isPySpace 'h' = false := by decide
  refine ⟨?_, ?_, ?_, ?_⟩
  · have hdata := string_data_append "https://www.youtube.com/watch?v=" id
    have hscan : reSearch matchAt1 ("https://www.youtube.com/watch?v=" ++ id).data =
        some id.data := by
      rw [hdata]
      exact scan1_watch id.data h11 hcl
    have hne := @not_empty_of_mem ("https://www.youtube.com/watch?v=" ++ id)
      'h' (by rw [hdata]; exact List.mem_append_left _ (by decide)) hid
    rw [get_video_id_of_scan1 hne hscan, String.mk_data]
  · have hdata := string_data_append "https://youtu.be/" id
    have hscan : reSearch matchAt1 ("https://youtu.be/" ++ id).data =
        some id.data := by
      rw [hdata]
      exact scan1_be id.data h11 hcl
    have hne := @not_empty_of_mem ("https://youtu.be/" ++ id)
      'h' (by rw [hdata]; exact List.mem_append_left _ (by decide)) hid
    rw [get_video_id_of_scan1 hne hscan, String.mk_data]
  · have hdata := string_data_append "https://www.youtube.com/embed/" id
    have hscan : reSearch matchAt1 ("https://www.youtube.com/embed/" ++ id).data =
        some id.data := by
      rw [hdata]
      exact scan1_embed id.data h11 hcl
    have hne := @not_empty_of_mem ("https://www.youtube.com/embed/" ++ id)
      'h' (by rw [hdata]; exact List.mem_append_left _ (by decide)) hid
    rw [get_video_id_of_scan1 hne hscan, String.mk_data]
  · have hnosp : ∀ c ∈ id.data, isPySpace c = false :=
      fun c hc => isIdChar_not_space (hcl c hc)
    have hslash : '/' ∉ id.data := fun hm => by
      have := hcl '/' hm
      exact absurd this (by decide)
    have heq : '=' ∉ id.data := fun hm => by
      have := hcl '=' hm
      exact absurd this (by decide)
    have hstrip : pyStrip id.data = id.data := pyStrip_of_not_space hnosp
    have hne : ¬(id.data = [] ∨ pyStrip id.data = []) := by
      rintro (h | h)
      · rw [h] at h11; simp at h11
      · rw [hstrip] at h; rw [h] at h11; simp at h11
    have h1 := scan1_eq_none_of hslash heq
    have h2 := scan2_eq_none_of hslash
    have h3 := scan3_eq_none_of hslash
    have hnil : id.data ≠ [] := by
      intro h
      rw [h] at h11
      simp at h11
    simp only [get_video_id, if_neg hne, h1, h2, h3, hstrip, if_pos h11,
      String.mk_data]
    rw [if_neg (by simp [hnil])]

/-- C6 witness: the url-forms theorem evaluated at the identifier
`dQw4w9WgXcQ`. -/
theorem c6_url_forms_witness :
    get_video_id ("https://www.youtube.com/watch?v=" ++ "dQw4w9WgXcQ") =
      .ok (some "dQw4w9WgXcQ") ∧
    get_video_id ("https://youtu.be/" ++ "dQw4w9WgXcQ") =
      .ok (some "dQw4w9WgXcQ") ∧
    get_video_id ("https://www.youtube.com/embed/" ++ "dQw4w9WgXcQ") =
      .ok (some "dQw4w9WgXcQ") ∧
    get_video_id "dQw4w9WgXcQ" = .ok (some "dQw4w9WgXcQ") :=
  c6_url_forms "dQw4w9WgXcQ" (by decide) (by decide)

/-! ### Claim C10 -/

/-- C10: the first `(?:v=|\/)` pattern matches at the first `/` or `v=`
occurrence followed by eleven `[0-9A-Za-z_-]` characters, in any string, url
or not (for example `https://example.com/abcdefghijk` yields `abcdefghijk`);
for the canonical embed and short-link forms, pattern 1 alone already
produces the identifier, so the dedicated embed and `youtu.be` patterns are
never the deciding pattern. -/
theorem c10_pattern1_dominates :
    (∀ pre id post : List Char, '/' ∉ pre → hasVEq pre = false →
      id.length = 11 → (∀ c ∈ id, isIdChar c = true) →
      get_video_id (String.mk (pre ++ '/' :: (id ++ post))) =
        .ok (some (String.mk id))) ∧
    (∀ pre id post : List Char, '/' ∉ pre → hasVEq pre = false →
      id.length = 11 → (∀ c ∈ id, isIdChar c = true) →
      get_video_id (String.mk (pre ++ 'v' :: '=' :: (id ++ post))) =
        .ok (some (String.mk id))) ∧
    get_video_id "https://example.com/abcdefghijk" = .ok (some "abcdefghijk") ∧
    (∀ id : String, id.data.length = 11 → (∀ c ∈ id.data, isIdChar c = true) →
      reSearch matchAt1 ("https://www.youtube.com/embed/" ++ id).data =
        some id.data ∧
      reSearch matchAt1 ("https://youtu.be/" ++ id).data = some id.data) := by
  refine ⟨?_, ?_, by decide, ?_⟩
  · intro pre id post hs hv h11 hcl
    have hg : grabId 11 (id ++ post) = some id := grabId_exact11 post h11 hcl
    have hscan : reSearch matchAt1 (pre ++ '/' :: (id ++ post)) = some id := by
      rw [scan1_skip pre '/' (id ++ post) hs hv (by decide)]
      exact scan1_at_slash hg
    have hne : ¬((String.mk (pre ++ '/' :: (id ++ post))).data = [] ∨
        pyStrip (String.mk (pre ++ '/' :: (id ++ post))).data = []) :=
      not_empty_of_mem
        (List.mem_append_right _ (List.mem_cons_self _ _)) (by decide)
    exact get_video_id_of_scan1 hne hscan
  · intro pre id post hs hv h11 hcl
    have hg : grabId 11 (id ++ post) = some id := grabId_exact11 post h11 hcl
    have hscan : reSearch matchAt1 (pre ++ 'v' :: '=' :: (id ++ post)) =
        some id := by
      rw [scan1_skip pre 'v' ('=' :: (id ++ post)) hs hv (by decide)]
      exact scan1_at_veq hg
    have hne : ¬((String.mk (pre ++ 'v' :: '=' :: (id ++ post))).data = [] ∨
        pyStrip (String.mk (pre ++ 'v' :: '=' :: (id ++ post))).data = []) :=
      not_empty_of_mem
        (List.mem_append_right _ (List.mem_cons_self _ _)) (by decide)
    exact get_video_id_of_scan1 hne hscan
  · intro id h11 hcl
    constructor
    · rw [string_data_append]
      exact scan1_embed id.data h11 hcl
    · rw [string_data_append]
      exact scan1_be id.data h11 hcl

/-- C10 witness: pattern-1 dominance evaluated with the non-url head `ab`,
the identifier `abcdefghijk` and a trailing `x`. -/
theorem c10_pattern1_dominates_witness :
    get_video_id (String.mk (['a', 'b'] ++ '/' :: ("abcdefghijk".data ++ ['x']))) =
      .ok (some (String.mk "abcdefghijk".data)) :=
  c10_pattern1_dominates.1 ['a', 'b'] "abcdefghijk".data ['x']
    (by decide) (by decide) (by decide) (by decide)

/-! ### Helper lemmas: hashtag search and removal -/

theorem hashHere_ne {c : Char} {l : List Char} (h : c ≠ 'H') :
    hashHere (c :: l) = none := by
  simp [hashHere, stripPre, h]

theorem findHash_append_noH {q : List Char} (hq : ∀ c ∈ q, c ≠ 'H')
    (l : List Char) : findHash (q ++ l) = findHash l := by
  induction q with
  | nil => rfl
  | cons c q' ih =>
    unfold findHash
    rw [List.cons_append,
      reSearch_cons_none (hashHere_ne (hq c (List.mem_cons_self _ _)))]
    exact ih fun d hd => hq d (List.mem_cons_of_mem _ hd)

theorem takeWhile_no_nl {ts : List Char} (h : '\n' ∉ ts) (post : List Char) :
    (ts ++ '\n' :: post).takeWhile (fun d => d != '\n') = ts ∧
    (ts ++ '\n' :: post).dropWhile (fun d => d != '\n') = '\n' :: post := by
  induction ts with
  | nil =>
    constructor <;> simp [List.takeWhile, List.dropWhile]
  | cons c ts' ih =>
    have hc : c ≠ '\n' := fun hh => h (hh ▸ List.mem_cons_self _ _)
    have ih' := ih fun hm => h (List.mem_cons_of_mem _ hm)
    constructor
    · rw [List.cons_append, List.takeWhile_cons_of_pos (by simp [hc]), ih'.1]
    · rw [List.cons_append, List.dropWhile_cons_of_pos (by simp [hc]), ih'.2]

/-- The hashtag pattern at its marker, when the tag text starts with a
non-whitespace character and contains no newline: the lazy capture is exactly
the rest of the marker's line, and the match ends before the newline. -/
theorem hashHere_marker {t : Char} {ts post : List Char}
    (ht : isPySpace t = false) (hts : '\n' ∉ ts) :
    hashHere ('H' :: 'A' :: 'S' :: 'H' :: 'T' :: 'A' :: 'G' :: 'S' :: ':' :: ' ' ::
      (t :: (ts ++ '\n' :: post))) = some (t :: ts, '\n' :: post) := by
  have h1 := takeWhile_no_nl hts post
  simp +decide [hashHere, stripPre, wsDotEolS, dotEolS, ht, h1.1, h1.2]

theorem removeHashFuel_nil (n : Nat) : removeHashFuel n [] = [] := by
  cases n <;> rfl

theorem removeHashFuel_append_noH : ∀ (q l : List Char) (n : Nat),
    (∀ c ∈ q, c ≠ 'H') → (q ++ l).length ≤ n →
    removeHashFuel n (q ++ l) = q ++ removeHashFuel (n - q.length) l := by
  intro q
  induction q with
  | nil => intro l n _ _; simp
  | cons c q' ih =>
    intro l n hq hlen
    cases n with
    | zero => simp at hlen
    | succ m =>
      rw [List.cons_append]
      simp only [removeHashFuel,
        hashHere_ne (hq c (List.mem_cons_self _ _))]
      have hlen' : (q' ++ l).length ≤ m := by
        simp at hlen ⊢
        omega
      rw [ih l m (fun d hd => hq d (List.mem_cons_of_mem _ hd)) hlen']
      simp [Nat.succ_sub_succ]

/-- One `re.sub` step at the hashtag marker: the marker's line is dropped and
the scan resumes at the newline, leaving the rest of the input intact when it
contains no `H`. -/
theorem removeHashFuel_marker {n : Nat} {t : Char} {ts post : List Char}
    (ht : isPySpace t = false) (hts : '\n' ∉ ts)
    (hpost : ∀ c ∈ post, c ≠ 'H') (hn : post.length + 1 ≤ n) :
    removeHashFuel (n + 1) ('H' :: 'A' :: 'S' :: 'H' :: 'T' :: 'A' :: 'G' :: 'S' ::
      ':' :: ' ' :: (t :: (ts ++ '\n' :: post))) = '\n' :: post := by
  simp only [removeHashFuel, hashHere_marker ht hts]
  have hq : ∀ c ∈ '\n' :: post, c ≠ 'H' := by
    intro c hc
    rcases List.mem_cons.1 hc with rfl | hc'
    · decide
    · exact hpost c hc'
  have := removeHashFuel_append_noH ('\n' :: post) [] n hq
    (by simp; omega)
  rw [List.append_nil] at this
  rw [this, removeHashFuel_nil, List.append_nil]

/-! ### Claim C1 -/

/-- C1 counterexample: on `"Body\nHASHTAGS: #a\ntrailing"` the capture stops
at the end of the hashtag line (the lazy `.+?` meets the MULTILINE `$` before
the newline), so the text after the hashtag line is kept in the body, not
silently discarded as claimed: the body is `"Body\n\ntrailing"`. -/
theorem c1_counterexample : parse_article_response ⟨2025, 1, 1, 0, 0, 0⟩
    "Body\nHASHTAGS: #a\ntrailing" =
    ("Article_20250101_000000", "Body\n\ntrailing", ["#a"]) := rfl

/-- C1 (amended): the hashtag capture runs from the marker only to the end of
the line on which the lazy match stops (the `(.+?)` is lazy, and with
MULTILINE the `$` already matches before the first newline); it is split on
whitespace with empty tokens discarded and order preserved, and only the
matched region (marker plus that line's text) is removed from the body —
text after the hashtag line is retained. -/
theorem c1_hashtag_line_scope :
    ∀ (now : Timestamp) (pre tags post : String) (t : Char) (ts : List Char),
    tags.data = t :: ts → isPySpace t = false → '\n' ∉ tags.data →
    (∀ c ∈ pre.data, c ≠ 'H') → (∀ c ∈ post.data, c ≠ 'H') →
    findTitle (pre ++ "HASHTAGS: " ++ tags ++ "\n" ++ post).data = none →
    parse_article_response now (pre ++ "HASHTAGS: " ++ tags ++ "\n" ++ post) =
      ("Article_" ++ fmtTs now,
       String.mk (pyStrip (pre.data ++ '\n' :: post.data)),
       (hashTokens tags.data).map String.mk) := by
  intro now pre tags post t ts htags ht hnl hpre hpost htitle
  have hts : '\n' ∉ ts := fun hm => hnl (htags ▸ List.mem_cons_of_mem _ hm)
  have hdata : (pre ++ "HASHTAGS: " ++ tags ++ "\n" ++ post).data =
      pre.data ++ 'H' :: 'A' :: 'S' :: 'H' :: 'T' :: 'A' :: 'G' :: 'S' :: ':' :: ' ' ::
        (t :: (ts ++ '\n' :: post.data)) := by
    rw [string_data_append, string_data_append, string_data_append,
      string_data_append, htags]
    simp
  have hfind : findHash (pre ++ "HASHTAGS: " ++ tags ++ "\n" ++ post).data =
      some (t :: ts, '\n' :: post.data) := by
    rw [hdata, findHash_append_noH hpre]
    unfold findHash
    exact reSearch_cons_some (hashHere_marker ht hts)
  have hrem : removeHash (pre ++ "HASHTAGS: " ++ tags ++ "\n" ++ post).data =
      pre.data ++ '\n' :: post.data := by
    rw [hdata]
    unfold removeHash
    rw [removeHashFuel_append_noH _ _ _ hpre (Nat.le_refl _)]
    have hsub : (pre.data ++ 'H' :: 'A' :: 'S' :: 'H' :: 'T' :: 'A' :: 'G' :: 'S' ::
        ':' :: ' ' :: (t :: (ts ++ '\n' :: post.data))).length - pre.data.length =
        (ts ++ '\n' :: post.data).length + 11 := by
      simp only [List.length_append, List.length_cons]
      omega
    rw [hsub]
    have h2 : (ts ++ '\n' :: post.data).length + 11 =
        ((ts ++ '\n' :: post.data).length + 10) + 1 := by omega
    rw [h2, removeHashFuel_marker ht hts hpost
      (by simp only [List.length_append, List.length_cons]; omega)]
  simp only [parse_article_response, htitle, hfind, hrem, htags]
  rfl

/-- C1 witness: the amended hashtag-line-scope theorem evaluated at the
response `"Body\nHASHTAGS: #a #b\ntrail"`. -/
theorem c1_hashtag_line_scope_witness :
    parse_article_response ⟨2025, 1, 1, 0, 0, 0⟩
      ("Body" ++ "HASHTAGS: " ++ "#a #b" ++ "\n" ++ "trail") =
    ("Article_" ++ fmtTs ⟨2025, 1, 1, 0, 0, 0⟩,
     String.mk (pyStrip ("Body".data ++ '\n' :: "trail".data)),
     (hashTokens "#a #b".data).map String.mk) :=
  c1_hashtag_line_scope ⟨2025, 1, 1, 0, 0, 0⟩ "Body" "#a #b" "trail" '#'
    "a #b".data (by decide) (by decide) (by decide) (by decide) (by decide)
    (by decide)

/-! ### Claim C3 -/

/-- C3: parsing the exact round-trip input
`"TITLE: Foo\n\nBody text\n\nHASHTAGS: #a #b #c"` yields title `Foo`, body
`Body text` and hashtags `#a`, `#b`, `#c`, for every clock reading. -/
theorem c3_round_trip : ∀ now : Timestamp, parse_article_response now
    "TITLE: Foo\n\nBody text\n\nHASHTAGS: #a #b #c" =
    ("Foo", "Body text", ["#a", "#b", "#c"]) := fun _ => rfl

/-- C3 witness: the round trip at a fixed clock reading. -/
theorem c3_round_trip_witness : parse_article_response ⟨2024, 6, 1, 12, 0, 0⟩
    "TITLE: Foo\n\nBody text\n\nHASHTAGS: #a #b #c" =
    ("Foo", "Body text", ["#a", "#b", "#c"]) :=
  c3_round_trip ⟨2024, 6, 1, 12, 0, 0⟩

/-! ### Claim C7 -/

theorem article_default_ne_empty (now : Timestamp) :
    ("Article_" ++ fmtTs now) ≠ "" := by
  intro h
  have h1 := congrArg String.data h
  rw [string_data_append] at h1
  have h2 : ("Article_".data : List Char) = [] := (List.append_eq_nil.mp h1).1
  exact absurd h2 (by decide)

/-- C7: the parser is total and needs neither marker: with no `TITLE:` line
match the title is the non-empty synthesized `Article_<timestamp>` default
(second-level precision through `%Y%m%d_%H%M%S`); with no `HASHTAGS:` match
the hashtag sequence is empty, and if additionally no title line matched the
body is the input itself (unmodified; in particular at most trimmed). -/
theorem c7_marker_free_defaults : ∀ (now : Timestamp) (r : String),
    (findTitle r.data = none →
      (parse_article_response now r).1 = "Article_" ++ fmtTs now ∧
      (parse_article_response now r).1 ≠ "") ∧
    (findHash r.data = none → (parse_article_response now r).2.2 = []) ∧
    (findTitle r.data = none → findHash r.data = none →
      (parse_article_response now r).2.1 = r) := by
  intro now r
  refine ⟨?_, ?_, ?_⟩
  · intro ht
    simp only [parse_article_response, ht]
    exact ⟨rfl, article_default_ne_empty now⟩
  · intro hh
    simp only [parse_article_response, hh]
    cases findTitle r.data <;> simp
  · intro ht hh
    simp only [parse_article_response, ht, hh]

/-- C7 witness: the defaults evaluated on the marker-free response
`"plain text"` with a fixed clock reading. -/
theorem c7_marker_free_defaults_witness :
    (parse_article_response ⟨2025, 1, 2, 3, 4, 5⟩ "plain text").1 =
      "Article_" ++ fmtTs ⟨2025, 1, 2, 3, 4, 5⟩ ∧
    (parse_article_response ⟨2025, 1, 2, 3, 4, 5⟩ "plain text").2.2 = [] ∧
    (parse_article_response ⟨2025, 1, 2, 3, 4, 5⟩ "plain text").2.1 =
      "plain text" := by
  have h := c7_marker_free_defaults ⟨2025, 1, 2, 3, 4, 5⟩ "plain text"
  exact ⟨(h.1 (by decide)).1, h.2.1 (by decide), h.2.2 (by decide) (by decide)⟩

/-! ### Claim C8 -/

set_option maxRecDepth 4000 in
/-- C8 counterexample: a 101-character title of colons is longer than 100
characters, but every colon is stripped before truncation, so the sanitized
filename has length 0, not exactly 100 as claimed. -/
theorem c8_counterexample :
    (String.mk (List.replicate 101 ':')).length = 101 ∧
    (sanitize_filename (String.mk (List.replicate 101 ':'))).length = 0 := by
  decide

/-- C8 (amended): the sanitized filename never exceeds 100 characters, and
whenever the cleaned title (after stripping the invalid characters and
collapsing whitespace runs to underscores) is at least 100 characters long,
the result is exactly 100 characters; a title longer than 100 characters can
nevertheless clean to fewer than 100, since stripping and collapsing shrink
it before truncation. -/
theorem c8_truncation : ∀ title : String,
    (sanitize_filename title).length ≤ 100 ∧
    (100 ≤ (cleanedTitle title).length →
      (sanitize_filename title).length = 100) := by
  intro title
  simp only [sanitize_filename]
  by_cases h : (cleanedTitle title).length > 100
  · rw [if_pos h]
    refine ⟨?_, fun _ => ?_⟩ <;>
      · rw [String.length_mk, List.length_take]
        omega
  · rw [if_neg h]
    refine ⟨?_, fun h2 => ?_⟩ <;>
      · rw [String.length_mk]
        omega

set_option maxRecDepth 4000 in
/-- C8 witness: the amended truncation bound evaluated on a title of 150
letters. -/
theorem c8_truncation_witness :
    (sanitize_filename (String.mk (List.replicate 150 'a'))).length = 100 :=
  (c8_truncation (String.mk (List.replicate 150 'a'))).2 (by decide)

/-! ### Claim C2 -/

theorem dlStep_no_gen {e : RunEnv} {acc : List Event × List String}
    {url : String} (h : Event.genRequest ∉ acc.1) :
    Event.genRequest ∉ (dlStep e acc url).1 := by
  unfold dlStep
  split
  · exact h
  · split
    · simp [h]
    · simp [h]

theorem downloadPhase_no_gen (e : RunEnv) (urls : List String) :
    Event.genRequest ∉ (downloadPhase e urls).1 := by
  have H : ∀ (us : List String) (acc : List Event × List String),
      Event.genRequest ∉ acc.1 →
      Event.genRequest ∉ (us.foldl (dlStep e) acc).1 := by
    intro us
    induction us with
    | nil => intro acc h; exact h
    | cons u us' ih => intro acc h; exact ih _ (dlStep_no_gen h)
  exact H urls ([], []) (by simp)

/-- C2 counterexample: with the credential absent, one usable url, and a
transcript fetcher that succeeds, the run still performs the transcript fetch
(a network call) before aborting with exit code 1, so the claim that no
transcript fetch is issued when the credential is missing is false at this
input. -/
theorem c2_counterexample :
    runMain sampleNoKeyEnv = ([Event.fetchTranscript (some "abcdefghijk")], 1) ∧
    Event.fetchTranscript (some "abcdefghijk") ∈ (runMain sampleNoKeyEnv).1 :=
  ⟨rfl, by decide⟩

/-- C2 (amended): when `GEMINI_API_KEY` is absent, the run terminates with
exit code 1 and never issues a generation request — the missing-credential
error is raised inside `generate_article`, before the generation call but
after the transcript downloads, which do take place. -/
theorem c2_no_gen_without_key : ∀ e : RunEnv, e.geminiKey = none →
    (runMain e).2 = 1 ∧ Event.genRequest ∉ (runMain e).1 := by
  intro e hk
  by_cases hu : collectUrls e.urlArgs = []
  · simp [runMain, hu]
  · by_cases hd : (downloadPhase e (collectUrls e.urlArgs)).2 = []
    · have hrm : runMain e = ((downloadPhase e (collectUrls e.urlArgs)).1, 1) := by
        simp [runMain, hu, hd]
      rw [hrm]
      exact ⟨rfl, downloadPhase_no_gen e _⟩
    · have hrm : runMain e = ((downloadPhase e (collectUrls e.urlArgs)).1, 1) := by
        simp [runMain, hu, hd, hk]
      rw [hrm]
      exact ⟨rfl, downloadPhase_no_gen e _⟩

/-- C2 witness: the amended claim evaluated on the concrete environment with
the credential absent. -/
theorem c2_no_gen_without_key_witness :
    (runMain sampleNoKeyEnv).2 = 1 ∧
    Event.genRequest ∉ (runMain sampleNoKeyEnv).1 :=
  c2_no_gen_without_key sampleNoKeyEnv rfl

/-! ### Claim C9 -/

/-- C9: the run exits 1 exactly when no usable url is given, when no
transcript download succeeds, or when the generation call fails (the call
raises: either the credential is missing or the generation service errors);
every other run exits 0. -/
theorem c9_exit_codes : ∀ e : RunEnv,
    ((runMain e).2 = 1 ↔ (collectUrls e.urlArgs = [] ∨
      (downloadPhase e (collectUrls e.urlArgs)).2 = [] ∨
      e.geminiKey = none ∨ (∃ m, e.gen = Except.error m))) ∧
    ((runMain e).2 = 0 ↔ ¬(collectUrls e.urlArgs = [] ∨
      (downloadPhase e (collectUrls e.urlArgs)).2 = [] ∨
      e.geminiKey = none ∨ (∃ m, e.gen = Except.error m))) := by
  intro e
  by_cases hu : collectUrls e.urlArgs = []
  · simp [runMain, hu]
  · by_cases hd : (downloadPhase e (collectUrls e.urlArgs)).2 = []
    · simp [runMain, hu, hd]
    · cases hk : e.geminiKey with
      | none => simp [runMain, hu, hd, hk]
      | some k =>
        cases hg : e.gen with
        | error m => simp [runMain, hu, hd, hk, hg]
        | ok r => simp [runMain, hu, hd, hk, hg]

/-- C9 witness: the exit-code characterization evaluated on the concrete
keyless environment, whose run must exit 1. -/
theorem c9_exit_codes_witness : (runMain sampleNoKeyEnv).2 = 1 :=
  (c9_exit_codes sampleNoKeyEnv).1.mpr (Or.inr (Or.inr (Or.inl rfl)))

example : get_video_id "https://www.youtube.com/watch?v=dQw4w9WgXcQ" =
    .ok (some "dQw4w9WgXcQ") := by decide
example : get_video_id "https://youtu.be/dQw4w9WgXcQ" =
    .ok (some "dQw4w9WgXcQ") := by decide
example : get_video_id "https://www.youtube.com/embed/dQw4w9WgXcQ" =
    .ok (some "dQw4w9WgXcQ") := by decide
example : get_video_id "abcdefghijk" = .ok (some "abcdefghijk") := by decide
example : get_video_id "!!!!!!!!!!!" = .ok (some "!!!!!!!!!!!") := by decide
example : get_video_id "   " = .ok none := by decide
example : get_video_id "" = .ok none := by decide
example : get_video_id "abcde" =
    .error ("Could not extract video ID from: " ++ "abcde") := by decide
example : get_video_id "https://example.com/abcdefghijk" =
    .ok (some "abcdefghijk") := by decide
